import Mathlib

/-!
Shallow embedding of the live disk synchronization and three-way merge core of
the `rustdown` repository (crates/rustdown-gui), together with theorems that
settle the frozen claims about it.

Source files embedded:
- `crates/rustdown-gui/src/live_merge.rs` (three-way merge engine)
- `crates/rustdown-gui/src/disk_io.rs` (stable reader)
- `crates/rustdown-gui/src/main.rs` (disk sync coordinator: document state,
  reload drain, per-tick logic, save path, conflict resolution)

Machine integers (`u64` nonce and edit counter) are modelled as `Nat` with an
explicit `% 2 ^ 64` where the Rust code uses `wrapping_add`. Fallible I/O is
modelled with `Except` and explicit environments that supply the result of
each primitive filesystem operation. The external `imara_diff` line diff is a
parameter (`diffFn`): every claim settled here is independent of the concrete
diff, and is proved for all values of that parameter.
-/

namespace Rustdown

/-- The wrap modulus of Rust's `u64` (`wrapping_add`). -/
def U64 : Nat := 2 ^ 64

/-! ## Line splitting

`imara_diff::sources::lines` tokenizes a text into lines, each token keeping
its trailing `'\n'`; a final segment without a newline is its own token and
the empty text has no tokens (checked against the repository's own
`diff_edits_*` tests, whose replacement tokens are `"X\n"` etc.). -/

/-- Helper for `lines`: walks the character list, accumulating the current
(reversed) line. -/
def linesAux : List Char → List Char → List (List Char)
  | [], acc => if acc = [] then [] else [acc.reverse]
  | c :: rest, acc =>
    if c = '\n' then (acc.reverse ++ ['\n']) :: linesAux rest []
    else linesAux rest (c :: acc)

/-- Embedding of `imara_diff::sources::lines`: split a text into lines, each
line keeping its trailing newline. -/
def lines (s : String) : List String :=
  (linesAux s.data []).map String.mk

/-! ## Merge engine data model (`live_merge.rs`) -/

/-- Embedding of `live_merge.rs::Merge3Outcome`. -/
inductive Merge3Outcome where
  | Clean (text : String)
  | Conflicted (conflict_marked : String) (ours_wins : String)
deriving DecidableEq

/-- Embedding of `live_merge.rs::Edit`: one hunk of a line diff against the
base — a half-open base line range plus replacement lines. -/
structure Edit where
  base_start : Nat
  base_end : Nat
  replacement : List String
deriving DecidableEq

/-- Embedding of `live_merge.rs::edits_overlap`. -/
def edits_overlap (left right : Edit) : Bool :=
  if left.base_start = left.base_end ∧ right.base_start = right.base_end then
    decide (left.base_start = right.base_start)
  else if left.base_start = left.base_end then
    decide (right.base_start ≤ left.base_start ∧ left.base_start < right.base_end)
  else if right.base_start = right.base_end then
    decide (left.base_start ≤ right.base_start ∧ right.base_start < left.base_end)
  else
    decide (left.base_start < right.base_end ∧ right.base_start < left.base_end)

/-- Embedding of `live_merge.rs::edits_identical`. -/
def edits_identical (left right : Edit) : Bool :=
  decide (left.base_start = right.base_start ∧ left.base_end = right.base_end ∧
    left.replacement = right.replacement)

/-- Embedding of `live_merge.rs::ensure_newline`: append a newline when the
buffer is nonempty and does not already end with one. -/
def ensure_newline (buf : String) : String :=
  if buf.data ≠ [] ∧ buf.data.getLast? ≠ some '\n' then buf ++ "\n" else buf

/-- Concatenation of the base-line slice `base[a..b]` (Rust slice of the line
vector, clamped). -/
def joinSlice (base : List String) (a b : Nat) : String :=
  String.join ((base.drop a).take (b - a))

/-- Embedding of `live_merge.rs::render_range_with_edits`: render one side's
version of a base range by applying only that side's edits. -/
def render_range_with_edits (base : List String) : Nat → Nat → List Edit → String
  | pos, stop, [] => if pos < stop then joinSlice base pos stop else ""
  | pos, stop, e :: rest =>
    (if pos < e.base_start then joinSlice base pos e.base_start else "") ++
      String.join e.replacement ++
      render_range_with_edits base e.base_end stop rest

/-- Embedding of the inner group-absorption loop of
`live_merge.rs::merge_three_way` (lines 153–172): transitively absorb any
further edit from either side whose start lies before the current group end.
Returns the final group end, the remaining edit lists, and the absorbed edits
of each side in order. `fuel` bounds the iteration count; every call site
passes more fuel than there are edits left, so the fuel never runs out. -/
def absorbGroup : Nat → Nat → List Edit → List Edit → List Edit → List Edit →
    Nat × List Edit × List Edit × List Edit × List Edit
  | 0, ge, os, ts, go, gt => (ge, os, ts, go, gt)
  | fuel + 1, ge, os, ts, go, gt =>
    let step1 : Nat × List Edit × List Edit × Bool :=
      match os with
      | o :: rest =>
        if o.base_start < ge then (max ge o.base_end, rest, go ++ [o], true)
        else (ge, os, go, false)
      | [] => (ge, os, go, false)
    let ge1 := step1.1
    let os1 := step1.2.1
    let go1 := step1.2.2.1
    let p1 := step1.2.2.2
    let step2 : Nat × List Edit × List Edit × Bool :=
      match ts with
      | t :: rest =>
        if t.base_start < ge1 then (max ge1 t.base_end, rest, gt ++ [t], true)
        else (ge1, ts, gt, false)
      | [] => (ge1, ts, gt, false)
    let ge2 := step2.1
    let ts2 := step2.2.1
    let gt2 := step2.2.2.1
    let p2 := step2.2.2.2
    if p1 || p2 then absorbGroup fuel ge2 os1 ts2 go1 gt2
    else (ge2, os1, ts2, go1, gt2)

/-- Embedding of the main merge-walk loop of `live_merge.rs::merge_three_way`
(lines 64–205). State: current base position `pos`, remaining edit lists of
each side, the two output buffers and the conflict flag. `fuel` bounds the
iteration count; the driver passes more fuel than there are edits, and every
iteration that recurses consumes at least one edit, so the fuel never runs
out. -/
def mergeWalk (base_lines : List String) (base_len : Nat) :
    Nat → Nat → List Edit → List Edit → String → String → Bool →
    String × String × Bool
  | 0, _, _, _, ow, cm, hc => (ow, cm, hc)
  | fuel + 1, pos, os, ts, ow, cm, hc =>
    let next_start :=
      match os, ts with
      | oe :: _, te :: _ => min oe.base_start te.base_start
      | oe :: _, [] => oe.base_start
      | [], te :: _ => te.base_start
      | [], [] => base_len
    let ow := if pos < next_start then ow ++ joinSlice base_lines pos next_start else ow
    let cm := if pos < next_start then cm ++ joinSlice base_lines pos next_start else cm
    let pos := if pos < next_start then next_start else pos
    match os, ts with
    | [], [] => (ow, cm, hc)
    | oe :: rest, [] =>
      mergeWalk base_lines base_len fuel oe.base_end rest []
        (ow ++ String.join oe.replacement) (cm ++ String.join oe.replacement) hc
    | [], te :: rest =>
      mergeWalk base_lines base_len fuel te.base_end [] rest
        (ow ++ String.join te.replacement) (cm ++ String.join te.replacement) hc
    | oe :: ro, te :: rt =>
      if oe.base_start = pos ∧ te.base_start = pos ∧ edits_identical oe te then
        mergeWalk base_lines base_len fuel oe.base_end ro rt
          (ow ++ String.join oe.replacement) (cm ++ String.join oe.replacement) hc
      else if ¬ edits_overlap oe te then
        if oe.base_start < te.base_start then
          mergeWalk base_lines base_len fuel oe.base_end ro (te :: rt)
            (ow ++ String.join oe.replacement) (cm ++ String.join oe.replacement) hc
        else
          mergeWalk base_lines base_len fuel te.base_end (oe :: ro) rt
            (ow ++ String.join te.replacement) (cm ++ String.join te.replacement) hc
      else
        let conflict_start := pos
        let init1 : Nat × List Edit × List Edit :=
          if oe.base_start = conflict_start then (max conflict_start oe.base_end, ro, [oe])
          else (conflict_start, oe :: ro, [])
        let ge0 := init1.1
        let os0 := init1.2.1
        let go0 := init1.2.2
        let init2 : Nat × List Edit × List Edit :=
          if te.base_start = conflict_start then (max ge0 te.base_end, rt, [te])
          else (ge0, te :: rt, [])
        let ge1 := init2.1
        let ts0 := init2.2.1
        let gt0 := init2.2.2
        let grp := absorbGroup (os0.length + ts0.length + 1) ge1 os0 ts0 go0 gt0
        let group_end := grp.1
        let os2 := grp.2.1
        let ts2 := grp.2.2.1
        let goF := grp.2.2.2.1
        let gtF := grp.2.2.2.2
        let ours_chunk := render_range_with_edits base_lines conflict_start group_end goF
        let theirs_chunk := render_range_with_edits base_lines conflict_start group_end gtF
        if ours_chunk = theirs_chunk then
          mergeWalk base_lines base_len fuel group_end os2 ts2
            (ow ++ ours_chunk) (cm ++ ours_chunk) hc
        else
          let cm := ensure_newline cm
          let cm := cm ++ "<<<<<<< ours\n" ++ ours_chunk
          let cm := ensure_newline cm
          let cm := cm ++ "=======\n" ++ theirs_chunk
          let cm := ensure_newline cm
          let cm := cm ++ ">>>>>>> theirs\n"
          mergeWalk base_lines base_len fuel group_end os2 ts2
            (ow ++ ours_chunk) cm true

/-- The whole-file conflict text built by the oversized-input branch of
`live_merge.rs::merge_three_way` (lines 37–51). -/
def oversizedConflictMarked (ours theirs : String) : String :=
  ensure_newline (ensure_newline ("<<<<<<< ours\n" ++ ours) ++ "=======\n" ++ theirs) ++
    ">>>>>>> theirs\n"

/-- The fixed line-count ceiling `MAX_MERGE_LINES` of
`live_merge.rs::merge_three_way`. -/
def MAX_MERGE_LINES : Nat := 20000

/-- Embedding of `live_merge.rs::merge_three_way`. The external `imara_diff`
line diff (`diff_edits`) is the parameter `diffFn`; everything else is the
source's control flow: the three fast paths, the oversized whole-file
conflict, and the merge walk. -/
def merge_three_way (diffFn : String → String → List Edit)
    (base ours theirs : String) : Merge3Outcome :=
  if ours = theirs then .Clean ours
  else if base = ours then .Clean theirs
  else if base = theirs then .Clean ours
  else
    let base_lines := lines base
    let max_lines := max base_lines.length (max (lines ours).length (lines theirs).length)
    if max_lines > MAX_MERGE_LINES then
      .Conflicted (oversizedConflictMarked ours theirs) ours
    else
      let ours_edits := diffFn base ours
      let theirs_edits := diffFn base theirs
      let walk := mergeWalk base_lines base_lines.length
        (ours_edits.length + theirs_edits.length + 1) 0 ours_edits theirs_edits "" "" false
      if walk.2.2 then .Conflicted walk.2.1 walk.1 else .Clean walk.1

/-! ## Stable reader (`disk_io.rs`) -/

/-- Error kinds distinguished by the embedded code (`io::ErrorKind`). -/
inductive IoErrorKind where
  | notFound
  | alreadyExists
  | invalidInput
  | other
deriving DecidableEq

/-- Model of `std::io::Error`: a kind plus its display text. -/
structure IoError where
  kind : IoErrorKind
  msg : String
deriving DecidableEq

deriving instance DecidableEq for Except

/-- The generic error built by `read_stable_utf8` when reads never failed but
the fingerprint never stabilized (`io::Error::other`). -/
def fileChangedError : IoError := ⟨.other, "file changed while reading"⟩

/-- Embedding of `disk_io.rs::DiskRevision`: a cheap file-state fingerprint
(mtime, byte length, device, inode), identity only. -/
structure DiskRevision where
  modified : Nat
  len : Nat
  dev : Nat
  inode : Nat
deriving DecidableEq

/-- The filesystem's behaviour during one attempt of `read_stable_utf8`: the
result of the first `disk_revision` call, of `fs::read_to_string`, and of the
second `disk_revision` call (each consulted only if the previous ones allow
the attempt to continue). -/
structure StableReadAttempt where
  before : Except IoError DiskRevision
  read : Except IoError String
  after : Except IoError DiskRevision
deriving DecidableEq

/-- `STABLE_READ_RETRIES` from `disk_io.rs`. -/
def STABLE_READ_RETRIES : Nat := 3

/-- The attempt loop of `disk_io.rs::read_stable_utf8`: `left` attempts remain,
`i` is the index of the current attempt in the environment, `lastErr` is the
`last_err` accumulator. The first fingerprint snapshot uses the `?` operator
(its failure returns immediately); a read failure or a failure of the second
snapshot records the error and retries; a fingerprint mismatch retries without
recording an error. -/
def readStableGo (env : Nat → StableReadAttempt) :
    Nat → Nat → Option IoError → Except IoError (String × DiskRevision)
  | 0, _, lastErr => .error (lastErr.getD fileChangedError)
  | left + 1, i, lastErr =>
    match (env i).before with
    | .error e => .error e
    | .ok bef =>
      match (env i).read with
      | .error e => readStableGo env left (i + 1) (some e)
      | .ok text =>
        match (env i).after with
        | .error e => readStableGo env left (i + 1) (some e)
        | .ok aft =>
          if bef = aft then .ok (text, aft)
          else readStableGo env left (i + 1) lastErr

/-- Embedding of `disk_io.rs::read_stable_utf8` over an environment that gives
the filesystem's responses for each attempt. -/
def read_stable_utf8 (env : Nat → StableReadAttempt) :
    Except IoError (String × DiskRevision) :=
  readStableGo env STABLE_READ_RETRIES 0 none

/-- The error an attempt leaves in `last_err`: the read error, else the
second-snapshot error, else nothing. -/
def attemptErr (a : StableReadAttempt) : Option IoError :=
  match a.read with
  | .error e => some e
  | .ok _ =>
    match a.after with
    | .error e => some e
    | .ok _ => none

/-- An attempt that makes `read_stable_utf8` continue to the next attempt:
its first snapshot succeeds, and then the read fails, or the second snapshot
fails, or the two snapshots disagree. -/
def isRetryAttempt (a : StableReadAttempt) : Bool :=
  match a.before with
  | .error _ => false
  | .ok bef =>
    match a.read with
    | .error _ => true
    | .ok _ =>
      match a.after with
      | .error _ => true
      | .ok aft => decide (bef ≠ aft)

/-- An attempt on which `read_stable_utf8` succeeds: both snapshots return the
same revision and the read returns `text`. -/
def isStableAttempt (a : StableReadAttempt) (text : String) (rev : DiskRevision) : Prop :=
  a.before = .ok rev ∧ a.read = .ok text ∧ a.after = .ok rev

instance (a : StableReadAttempt) (text : String) (rev : DiskRevision) :
    Decidable (isStableAttempt a text rev) := by
  unfold isStableAttempt
  infer_instance

/-! ## Disk sync coordinator (`main.rs`)

The coordinator state is the disk-sync-relevant part of `RustdownApp` plus the
`Document` triple. Purely visual caches (`stats`, `md_cache`,
`editor_galley_cache`, `preview_dirty`, `image_uri_scheme`) are not modelled;
the `notify` watcher handle is modelled as a `Bool` (attached or not) and its
event stream through the tick environment; `Instant` is modelled as
milliseconds (`Nat`); paths are modelled as strings. The background-thread
channel is the explicit queue `disk_read_rx`. -/

/-- `DISK_POLL_INTERVAL` (ms) from `main.rs`. -/
def DISK_POLL_INTERVAL : Nat := 250

/-- `DISK_RELOAD_DEBOUNCE` (ms) from `main.rs`. -/
def DISK_RELOAD_DEBOUNCE : Nat := 75

/-- Embedding of `main.rs::DiskReloadOutcome`. -/
inductive DiskReloadOutcome where
  | Replace (disk_text : String) (disk_rev : DiskRevision)
  | MergeClean (merged_text : String) (disk_text : String) (disk_rev : DiskRevision)
  | MergeConflict (disk_text : String) (disk_rev : DiskRevision)
      (conflict_marked : String) (ours_wins : String)
deriving DecidableEq

/-- Embedding of `main.rs::DiskReadMessage`. -/
structure DiskReadMessage where
  path : String
  nonce : Nat
  edit_seq : Nat
  outcome : Except IoError DiskReloadOutcome
deriving DecidableEq

/-- Embedding of `main.rs::DiskConflict`. -/
structure DiskConflict where
  disk_text : String
  disk_rev : DiskRevision
  conflict_marked : String
  ours_wins : String
deriving DecidableEq

/-- Embedding of `main.rs::Document` (the sync-relevant fields). -/
structure Document where
  path : Option String
  text : String
  base_text : String
  disk_rev : Option DiskRevision
  dirty : Bool
  last_edit_at : Option Nat
  edit_seq : Nat
deriving DecidableEq

/-- Embedding of the sync-relevant fields of `main.rs::RustdownApp`. -/
structure AppState where
  doc : Document
  error : Option String
  disk_reload_nonce : Nat
  disk_watcher : Bool
  disk_poll_at : Option Nat
  pending_disk_reload_at : Option Nat
  disk_reload_in_flight : Bool
  disk_read_rx : Option (List DiskReadMessage)
  disk_conflict : Option DiskConflict
  merge_sidecar_path : Option String
deriving DecidableEq

/-- Embedding of `main.rs::bump_edit_seq`: `edit_seq = edit_seq.wrapping_add(1)`
on a `u64`. -/
def bump_edit_seq (s : AppState) : AppState :=
  { s with doc := { s.doc with edit_seq := (s.doc.edit_seq + 1) % U64 } }

/-- Embedding of `main.rs::schedule_disk_reload`: schedule at `now + debounce`,
coalesced to the earliest pending due time. -/
def schedule_disk_reload (now : Nat) (s : AppState) : AppState :=
  let due_at := now + DISK_RELOAD_DEBOUNCE
  if (match s.pending_disk_reload_at with
      | none => true
      | some existing => existing > due_at) then
    { s with pending_disk_reload_at := some due_at }
  else s

/-- Embedding of `main.rs::apply_disk_text_state` (visual cache refreshes
omitted). -/
def apply_disk_text_state (s : AppState) (text base_text : String)
    (disk_rev : DiskRevision) (dirty clear_last_edit : Bool) : AppState :=
  let s := { s with doc := { s.doc with
    text := text, base_text := base_text, disk_rev := some disk_rev } }
  let s := bump_edit_seq s
  { s with
    doc := { s.doc with
      dirty := dirty
      last_edit_at := if clear_last_edit then none else s.doc.last_edit_at }
    error := none }

/-- Embedding of `main.rs::set_disk_conflict`. -/
def set_disk_conflict (s : AppState) (disk_text : String) (disk_rev : DiskRevision)
    (conflict_marked ours_wins : String) : AppState :=
  { s with disk_conflict := some ⟨disk_text, disk_rev, conflict_marked, ours_wins⟩ }

/-- Embedding of `main.rs::reset_disk_sync_state` (including
`clear_disk_watcher`). -/
def reset_disk_sync_state (s : AppState) : AppState :=
  { s with
    disk_reload_nonce := (s.disk_reload_nonce + 1) % U64
    disk_poll_at := none
    pending_disk_reload_at := none
    disk_reload_in_flight := false
    disk_conflict := none
    disk_watcher := false }

/-- The per-message body of the `main.rs::drain_disk_read_results` loop,
folded over the queued messages in arrival order. `now` is the clock used by
the reschedule in the stale-`edit_seq` arm. -/
def drainGo (now : Nat) : AppState → List DiskReadMessage → AppState
  | s, [] => { s with disk_read_rx := some [] }
  | s, msg :: rest =>
    if msg.nonce ≠ s.disk_reload_nonce then drainGo now s rest
    else if s.doc.path ≠ some msg.path then drainGo now s rest
    else
      let s := { s with disk_reload_in_flight := false }
      if s.doc.edit_seq ≠ msg.edit_seq then
        drainGo now (schedule_disk_reload now s) rest
      else
        match msg.outcome with
        | .ok (.Replace disk_text disk_rev) =>
          drainGo now (apply_disk_text_state s disk_text disk_text disk_rev false true) rest
        | .ok (.MergeClean merged_text disk_text disk_rev) =>
          drainGo now (apply_disk_text_state s merged_text disk_text disk_rev true false) rest
        | .ok (.MergeConflict disk_text disk_rev conflict_marked ours_wins) =>
          drainGo now (set_disk_conflict s disk_text disk_rev conflict_marked ours_wins) rest
        | .error e =>
          drainGo now { s with error := some ("Reload failed: " ++ e.msg) } rest

/-- Embedding of `main.rs::drain_disk_read_results`: non-blocking receive of
every queued background result. -/
def drain_disk_read_results (now : Nat) (s : AppState) : AppState :=
  match s.disk_read_rx with
  | none => s
  | some msgs => drainGo now s msgs

/-- Embedding of `main.rs::incorporate_disk_text`, parameterized by the line
diff like `merge_three_way`. -/
def incorporate_disk_text (diffFn : String → String → List Edit)
    (s : AppState) (disk_text : String) (disk_rev : DiskRevision) : AppState :=
  if s.doc.disk_rev = some disk_rev ∧ disk_text = s.doc.base_text then s
  else if ¬ s.doc.dirty then
    apply_disk_text_state s disk_text disk_text disk_rev false true
  else
    match merge_three_way diffFn s.doc.base_text s.doc.text disk_text with
    | .Clean merged =>
      apply_disk_text_state s merged disk_text disk_rev true false
    | .Conflicted conflict_marked ours_wins =>
      set_disk_conflict s disk_text disk_rev conflict_marked ours_wins

/-- A file write attempted by the embedded code (`atomic_write_utf8` call). -/
inductive FsEffect where
  | write (path : String) (content : String)
deriving DecidableEq

/-- Environment for one `save_doc` run: the save dialog's answer, the result
of the pre-save `read_stable_utf8`, of `atomic_write_utf8`, and of the
post-write `disk_revision`. -/
structure SaveEnv where
  dialog : Option String
  stableRead : Except IoError (String × DiskRevision)
  writeResult : Except IoError Unit
  diskRev : Except IoError DiskRevision
deriving DecidableEq

/-- Embedding of `main.rs::save_path_choice`. -/
def save_path_choice (dialog : Option String) (save_as : Bool) (s : AppState) :
    Option (String × Bool) :=
  match save_as, s.doc.path with
  | false, some path => some (path, false)
  | _, _ => dialog.map (fun path => (path, true))

/-- Embedding of `main.rs::save_doc`. Returns the new state, the `bool` the
source returns, and the list of file writes attempted. -/
def save_doc (diffFn : String → String → List Edit) (env : SaveEnv)
    (save_as : Bool) (s : AppState) : AppState × Bool × List FsEffect :=
  match save_path_choice env.dialog save_as s with
  | none => (s, false, [])
  | some (path, update_doc_path) =>
    let saving_to_current_path := s.doc.path = some path
    let s :=
      if s.disk_conflict = none ∧ saving_to_current_path then
        match env.stableRead with
        | .ok (disk_text, disk_rev) => incorporate_disk_text diffFn s disk_text disk_rev
        | .error e =>
          if e.kind = .notFound then s
          else { s with error :=
            if s.error = none then some ("Pre-save reload failed: " ++ e.msg) else s.error }
      else s
    if s.disk_conflict ≠ none then (s, false, [])
    else
      match env.writeResult with
      | .ok _ =>
        let doc := if update_doc_path then { s.doc with path := some path } else s.doc
        let doc := { doc with
          dirty := false, base_text := doc.text, disk_rev := env.diskRev.toOption }
        (reset_disk_sync_state { s with doc := doc, error := none }, true,
          [.write path s.doc.text])
      | .error e =>
        ({ s with error := some ("Save failed: " ++ e.msg) }, false,
          [.write path s.doc.text])

/-- Embedding of `main.rs::ConflictChoice`. -/
inductive ConflictChoice where
  | OpenConflictMerge
  | KeepMineWriteSidecar
  | SaveAs
  | ReloadDisk
  | OverwriteDisk
deriving DecidableEq

/-- Environment for one `apply_conflict_choice` run: the nested `save_doc`
environment plus the results of `next_merge_sidecar_path`, the sidecar
`atomic_write_utf8`, the overwrite `atomic_write_utf8`, and the post-overwrite
`disk_revision`. -/
structure ConflictEnv where
  save : SaveEnv
  sidecarPath : Except IoError String
  sidecarWrite : Except IoError Unit
  overwriteResult : Except IoError Unit
  overwriteRev : Except IoError DiskRevision
deriving DecidableEq

/-- Embedding of `main.rs::write_merge_sidecar`. -/
def write_merge_sidecar (env : ConflictEnv) (s : AppState)
    (conflict_marked : String) : AppState × List FsEffect :=
  match env.sidecarPath with
  | .error e =>
    ({ s with error :=
      if s.error = none then some ("Merge file path failed: " ++ e.msg) else s.error }, [])
  | .ok sidecar_path =>
    match env.sidecarWrite with
    | .ok _ =>
      ({ s with merge_sidecar_path := some sidecar_path },
        [.write sidecar_path conflict_marked])
    | .error e =>
      ({ s with error :=
        if s.error = none then some ("Merge file write failed: " ++ e.msg) else s.error },
        [.write sidecar_path conflict_marked])

/-- Embedding of `main.rs::apply_conflict_choice`. Returns the new state and
the file writes attempted. -/
def apply_conflict_choice (diffFn : String → String → List Edit)
    (env : ConflictEnv) (choice : ConflictChoice) (s : AppState) :
    AppState × List FsEffect :=
  match s.disk_conflict with
  | none => (s, [])
  | some conflict =>
    let s := { s with disk_conflict := none }
    match choice with
    | .OpenConflictMerge =>
      (reset_disk_sync_state (apply_disk_text_state s conflict.conflict_marked
        conflict.disk_text conflict.disk_rev true false), [])
    | .KeepMineWriteSidecar =>
      let s := apply_disk_text_state s conflict.ours_wins conflict.disk_text
        conflict.disk_rev true false
      let step :=
        match s.doc.path with
        | some _ => write_merge_sidecar env s conflict.conflict_marked
        | none => (s, [])
      (reset_disk_sync_state step.1, step.2)
    | .SaveAs =>
      let res := save_doc diffFn env.save true s
      if res.2.1 = false then ({ res.1 with disk_conflict := some conflict }, res.2.2)
      else (reset_disk_sync_state res.1, res.2.2)
    | .ReloadDisk =>
      (reset_disk_sync_state (apply_disk_text_state s conflict.disk_text
        conflict.disk_text conflict.disk_rev false false), [])
    | .OverwriteDisk =>
      match s.doc.path with
      | none => ({ s with disk_conflict := some conflict }, [])
      | some path =>
        match env.overwriteResult with
        | .error e =>
          ({ s with
            disk_conflict := some conflict
            error := if s.error = none then some ("Overwrite failed: " ++ e.msg) else s.error },
            [.write path s.doc.text])
        | .ok _ =>
          let doc := { s.doc with
            base_text := s.doc.text, disk_rev := env.overwriteRev.toOption, dirty := false }
          (reset_disk_sync_state { s with doc := doc, error := none },
            [.write path s.doc.text])

/-- One reload request issued by `start_disk_reload`: the snapshot handed to
the background worker. -/
structure ReloadRequest where
  nonce : Nat
  edit_seq : Nat
  dirty : Bool
  path : String
deriving DecidableEq

/-- Embedding of the state mutations of `main.rs::start_disk_reload`
(channel creation, snapshot, fresh nonce, in-flight flag); the spawned worker
itself is represented by the returned `ReloadRequest`. -/
def start_disk_reload (path : String) (s : AppState) : AppState × ReloadRequest :=
  let s := if s.disk_read_rx = none then { s with disk_read_rx := some [] } else s
  let nonce := (s.disk_reload_nonce + 1) % U64
  ({ s with disk_reload_nonce := nonce, disk_reload_in_flight := true },
    ⟨nonce, s.doc.edit_seq, s.doc.dirty, path⟩)

/-- Environment for one `tick_disk_sync` run: the clock, whether
`ensure_disk_watcher` leaves a watcher attached, whether
`drain_disk_watch_events` reported a matching event, and the polled
`disk_revision` result. -/
structure TickEnv where
  now : Nat
  watcherOk : Bool
  sawChange : Bool
  pollRev : Except IoError DiskRevision
deriving DecidableEq

/-- The polling arm of `tick_disk_sync` (lines 1590–1601): stamp the next poll
time, fingerprint the file and schedule a reload on mismatch. -/
def pollStep (env : TickEnv) (s : AppState) : AppState :=
  let s := { s with disk_poll_at := some (env.now + DISK_POLL_INTERVAL) }
  match env.pollRev with
  | .ok rev => if some rev ≠ s.doc.disk_rev then schedule_disk_reload env.now s else s
  | .error e =>
    { s with error := if s.error = none then some ("Disk check failed: " ++ e.msg) else s.error }

/-- The watcher/watch-event/polling section of `main.rs::tick_disk_sync`
(lines 1580–1605): attach or drop the watcher per the environment, schedule a
reload on a watch event, and poll the fingerprint when no watcher is attached
and no reload is in flight. -/
def tickWatchAndPoll (env : TickEnv) (s : AppState) : AppState :=
  let s := { s with disk_watcher := env.watcherOk }
  let s := if env.sawChange then schedule_disk_reload env.now s else s
  if s.disk_watcher = false ∧ s.disk_reload_in_flight = false then
    match s.disk_poll_at with
    | some next => if env.now < next then s else pollStep env s
    | none => pollStep env s
  else { s with disk_poll_at := none }

/-- Embedding of `main.rs::tick_disk_sync`. Returns the new state and the
reload request started this tick, if any (the final repaint-scheduling lines
touch no modelled state). -/
def tick_disk_sync (env : TickEnv) (s : AppState) : AppState × Option ReloadRequest :=
  let s := drain_disk_read_results env.now s
  if s.disk_conflict ≠ none then (s, none)
  else
    match s.doc.path with
    | none => (reset_disk_sync_state s, none)
    | some path =>
      let s := tickWatchAndPoll env s
      if s.disk_reload_in_flight then (s, none)
      else
        match s.pending_disk_reload_at with
        | some due_at =>
          if env.now ≥ due_at then
            let s := { s with pending_disk_reload_at := none }
            let started := start_disk_reload path s
            (started.1, some started.2)
          else (s, none)
        | none => (s, none)

/-! ## Supporting lemmas -/

/-- `ensure_newline` either appends exactly one newline or leaves the buffer
unchanged. -/
theorem ensure_newline_eq (b : String) :
    ensure_newline b = b ++ "\n" ∨ ensure_newline b = b := by
  unfold ensure_newline
  split
  · exact Or.inl rfl
  · exact Or.inr rfl

/-- `linesAux` on a run of newlines yields one single-newline line per
character. -/
theorem linesAux_replicate (n : Nat) :
    linesAux (List.replicate n '\n') [] = List.replicate n ['\n'] := by
  induction n with
  | zero => rfl
  | succ n ih => simp [List.replicate_succ, linesAux, ih]

/-- A text of `n` newline characters. -/
def newlineRun (n : Nat) : String := String.mk (List.replicate n '\n')

/-- `lines` of a newline run: one line per character. -/
theorem lines_newlineRun (n : Nat) :
    lines (newlineRun n) = List.replicate n "\n" := by
  show (linesAux (List.replicate n '\n') []).map String.mk = _
  rw [linesAux_replicate]
  exact List.map_replicate

/-- 20001 newline characters: a text just over the merge line ceiling. -/
def bigText : String := newlineRun 20001

/-- `bigText` splits into 20001 lines. -/
theorem lines_bigText_length : (lines bigText).length = 20001 := by
  rw [show lines bigText = List.replicate 20001 "\n" from lines_newlineRun 20001]
  exact List.length_replicate 20001 "\n"

/-- `bigText` is distinct from any single-character text. -/
theorem bigText_ne_x : bigText ≠ "x" := by
  intro h
  have h2 : bigText.data.length = ("x" : String).data.length := by rw [h]
  have h3 : bigText.data.length = 20001 := by
    show (List.replicate 20001 '\n').length = 20001
    exact List.length_replicate 20001 '\n'
  have h4 : ("x" : String).data.length = 1 := rfl
  omega

/-- The oversized fast-exit condition holds whenever `ours` is `bigText`. -/
theorem oversized_condition_bigText (base theirs : String) :
    MAX_MERGE_LINES <
      max (lines base).length (max (lines bigText).length (lines theirs).length) := by
  have h := lines_bigText_length
  have : (20001 : Nat) ≤ max (lines base).length
      (max (lines bigText).length (lines theirs).length) := by
    calc (20001 : Nat) = (lines bigText).length := h.symm
    _ ≤ max (lines bigText).length (lines theirs).length := le_max_left _ _
    _ ≤ _ := le_max_right _ _
  unfold MAX_MERGE_LINES
  omega

/-! ## Claims about the merge engine -/

/-- **C2.** For all texts `base`, `ours`, `theirs`, `merge_three_way` takes a
fast path without diffing: if `ours = theirs` it returns `Clean ours`;
otherwise if `base = ours` it returns `Clean theirs`; otherwise if
`base = theirs` it returns `Clean ours`; in particular
`merge base x x = Clean x` for every `base` and `x`, and on every fast path
the result does not depend on the diff function at all. -/
theorem merge_fast_paths (f g : String → String → List Edit)
    (base ours theirs : String) :
    (ours = theirs → merge_three_way f base ours theirs = .Clean ours) ∧
    (ours ≠ theirs → base = ours →
      merge_three_way f base ours theirs = .Clean theirs) ∧
    (ours ≠ theirs → base ≠ ours → base = theirs →
      merge_three_way f base ours theirs = .Clean ours) ∧
    (∀ x, merge_three_way f base x x = .Clean x) ∧
    ((ours = theirs ∨ base = ours ∨ base = theirs) →
      merge_three_way f base ours theirs = merge_three_way g base ours theirs) := by
  refine ⟨?_, ?_, ?_, ?_, ?_⟩
  · intro h
    simp [merge_three_way, h]
  · intro h1 h2
    simp [merge_three_way, h1, h2]
  · intro h1 h2 h3
    simp [merge_three_way, h1, h2, h3]
  · intro x
    simp [merge_three_way]
  · rintro (rfl | rfl | rfl) <;> simp [merge_three_way]

/-- Witness for C2: the three fast paths at concrete inputs (the repository's
own unit-test triples). -/
theorem merge_fast_paths_witness :
    merge_three_way (fun _ _ => []) "a\n" "b\n" "b\n" = .Clean "b\n" ∧
    merge_three_way (fun _ _ => []) "a\n" "a\n" "c\n" = .Clean "c\n" ∧
    merge_three_way (fun _ _ => []) "a\n" "b\n" "a\n" = .Clean "b\n" :=
  ⟨(merge_fast_paths (fun _ _ => []) (fun _ _ => []) "a\n" "b\n" "b\n").1 rfl,
   (merge_fast_paths (fun _ _ => []) (fun _ _ => []) "a\n" "a\n" "c\n").2.1
     (by decide) rfl,
   (merge_fast_paths (fun _ _ => []) (fun _ _ => []) "a\n" "b\n" "a\n").2.2.1
     (by decide) (by decide) rfl⟩

/-- **C3.** The merge engine's overlap test, characterized exactly as the
claim states it, for well-formed edits (base ranges with `start ≤ end`, as
every diff hunk satisfies): two non-empty base ranges overlap exactly when
they intersect as sets of base line positions; a zero-length (pure insertion)
edit overlaps another zero-length edit only at an identical insertion point;
and a zero-length edit overlaps a non-empty edit exactly when its insertion
point lies strictly inside that edit's half-open base range — read as
membership in `[start, end)`: at or after the range's start and strictly
before its end. -/
theorem edits_overlap_characterization (l r : Edit)
    (hl : l.base_start ≤ l.base_end) (hr : r.base_start ≤ r.base_end) :
    edits_overlap l r = true ↔
      (if l.base_start = l.base_end then
        if r.base_start = r.base_end then l.base_start = r.base_start
        else l.base_start ∈ Set.Ico r.base_start r.base_end
      else if r.base_start = r.base_end then
        r.base_start ∈ Set.Ico l.base_start l.base_end
      else (Set.Ico l.base_start l.base_end ∩
        Set.Ico r.base_start r.base_end).Nonempty) := by
  rcases eq_or_ne l.base_start l.base_end with hle | hle
  · rcases eq_or_ne r.base_start r.base_end with hre | hre
    · simp [edits_overlap, hle, hre]
    · simp [edits_overlap, hle, hre, Set.mem_Ico]
  · rcases eq_or_ne r.base_start r.base_end with hre | hre
    · simp [edits_overlap, hle, hre, Set.mem_Ico]
    · unfold edits_overlap
      rw [if_neg (fun hh => hle hh.1), if_neg hle, if_neg hre, if_neg hle, if_neg hre]
      rw [Set.Ico_inter_Ico, Set.nonempty_Ico]
      simp only [decide_eq_true_eq, sup_lt_iff, lt_inf_iff]
      omega

/-- Witness for C3: two pure insertions at the same point overlap. -/
theorem edits_overlap_characterization_witness :
    edits_overlap ⟨2, 2, []⟩ ⟨2, 2, []⟩ = true :=
  (edits_overlap_characterization ⟨2, 2, []⟩ ⟨2, 2, []⟩ (by decide) (by decide)).mpr
    (by simp)

/-- **C5.** When no fast-path equality holds and some side exceeds the
20,000-line ceiling, `merge_three_way` performs no fine-grained diffing (the
result is independent of the diff function) and returns a whole-file
`Conflicted` result whose conflict-marked text is the full `ours` text and
the full `theirs` text as two marker-delimited sections (each padded with at
most one newline). -/
theorem merge_oversized_whole_file_conflict
    (f g : String → String → List Edit) (base ours theirs : String)
    (h1 : ours ≠ theirs) (h2 : base ≠ ours) (h3 : base ≠ theirs)
    (hbig : MAX_MERGE_LINES <
      max (lines base).length (max (lines ours).length (lines theirs).length)) :
    (∃ pad1 pad2, (pad1 = "" ∨ pad1 = "\n") ∧ (pad2 = "" ∨ pad2 = "\n") ∧
      merge_three_way f base ours theirs =
        .Conflicted
          ("<<<<<<< ours\n" ++ ours ++ pad1 ++ "=======\n" ++ theirs ++ pad2 ++
            ">>>>>>> theirs\n") ours) ∧
    merge_three_way f base ours theirs = merge_three_way g base ours theirs := by
  have hred : ∀ h : String → String → List Edit,
      merge_three_way h base ours theirs =
        .Conflicted (oversizedConflictMarked ours theirs) ours := by
    intro h
    simp [merge_three_way, h1, h2, h3, hbig]
  refine ⟨?_, (hred f).trans (hred g).symm⟩
  rcases ensure_newline_eq ("<<<<<<< ours\n" ++ ours) with e1 | e1
  · rcases ensure_newline_eq
        ("<<<<<<< ours\n" ++ ours ++ "\n" ++ "=======\n" ++ theirs) with e2 | e2
    · refine ⟨"\n", "\n", Or.inr rfl, Or.inr rfl, ?_⟩
      rw [hred f]
      unfold oversizedConflictMarked
      rw [e1, e2]
    · refine ⟨"\n", "", Or.inr rfl, Or.inl rfl, ?_⟩
      rw [hred f]
      unfold oversizedConflictMarked
      rw [e1, e2]
      simp [String.append_empty]
  · rcases ensure_newline_eq
        ("<<<<<<< ours\n" ++ ours ++ "=======\n" ++ theirs) with e2 | e2
    · refine ⟨"", "\n", Or.inl rfl, Or.inr rfl, ?_⟩
      rw [hred f]
      unfold oversizedConflictMarked
      rw [e1, e2]
      simp [String.append_empty]
    · refine ⟨"", "", Or.inl rfl, Or.inl rfl, ?_⟩
      rw [hred f]
      unfold oversizedConflictMarked
      rw [e1, e2]
      simp [String.append_empty]

/-- Witness for C5: with a 20,001-line `ours`, the oversized whole-file
conflict is taken. -/
theorem merge_oversized_whole_file_conflict_witness :
    (∃ pad1 pad2, (pad1 = "" ∨ pad1 = "\n") ∧ (pad2 = "" ∨ pad2 = "\n") ∧
      merge_three_way (fun _ _ => []) "" bigText "x" =
        .Conflicted
          ("<<<<<<< ours\n" ++ bigText ++ pad1 ++ "=======\n" ++ "x" ++ pad2 ++
            ">>>>>>> theirs\n") bigText) ∧
    merge_three_way (fun _ _ => []) "" bigText "x" =
      merge_three_way (fun _ _ => [⟨0, 0, []⟩]) "" bigText "x" :=
  merge_oversized_whole_file_conflict (fun _ _ => []) (fun _ _ => [⟨0, 0, []⟩])
    "" bigText "x" bigText_ne_x (by decide) (by decide)
    (oversized_condition_bigText "" "x")

/-- **C9.** On the oversized-merge fallback, the `Conflicted` result's
`ours_wins` text is exactly the `ours` input, byte for byte. -/
theorem merge_oversized_ours_wins_exact
    (f : String → String → List Edit) (base ours theirs : String)
    (h1 : ours ≠ theirs) (h2 : base ≠ ours) (h3 : base ≠ theirs)
    (hbig : MAX_MERGE_LINES <
      max (lines base).length (max (lines ours).length (lines theirs).length)) :
    ∃ conflict_marked,
      merge_three_way f base ours theirs = .Conflicted conflict_marked ours := by
  refine ⟨oversizedConflictMarked ours theirs, ?_⟩
  simp [merge_three_way, h1, h2, h3, hbig]

/-- Witness for C9 at concrete oversized inputs. -/
theorem merge_oversized_ours_wins_exact_witness :
    ∃ conflict_marked,
      merge_three_way (fun _ _ => []) "b" bigText "x" =
        .Conflicted conflict_marked bigText :=
  merge_oversized_ours_wins_exact (fun _ _ => []) "b" bigText "x"
    bigText_ne_x (by decide) (by decide)
    (oversized_condition_bigText "b" "x")

/-! ## Claims about the stable reader -/

/-- The `last_err` value after one retried attempt: the attempt's recorded
error if any, else the previous value. -/
def updateLastErr (a : StableReadAttempt) (lastErr : Option IoError) : Option IoError :=
  match attemptErr a with
  | some e => some e
  | none => lastErr

/-- The `last_err` value after all three attempts were retried: the error of
the latest attempt that recorded one. -/
def lastRecordedErr (env : Nat → StableReadAttempt) : Option IoError :=
  updateLastErr (env 2) (updateLastErr (env 1) (updateLastErr (env 0) none))

/-- An attempt whose first fingerprint snapshot fails makes `readStableGo`
return that error at once (the `?` operator). -/
theorem readStableGo_beforeErr (env : Nat → StableReadAttempt) (left i : Nat)
    (lastErr : Option IoError) (e : IoError) (h : (env i).before = .error e) :
    readStableGo env (left + 1) i lastErr = .error e := by
  simp only [readStableGo, h]

/-- A stable attempt makes `readStableGo` succeed with the read text and the
matching revision. -/
theorem readStableGo_stable (env : Nat → StableReadAttempt) (left i : Nat)
    (lastErr : Option IoError) (text : String) (rev : DiskRevision)
    (h : isStableAttempt (env i) text rev) :
    readStableGo env (left + 1) i lastErr = .ok (text, rev) := by
  obtain ⟨h1, h2, h3⟩ := h
  simp [readStableGo, h1, h2, h3]

/-- A retryable attempt makes `readStableGo` move on to the next attempt,
updating `last_err`. -/
theorem readStableGo_retry (env : Nat → StableReadAttempt) (left i : Nat)
    (lastErr : Option IoError) (h : isRetryAttempt (env i) = true) :
    readStableGo env (left + 1) i lastErr =
      readStableGo env left (i + 1) (updateLastErr (env i) lastErr) := by
  unfold isRetryAttempt at h
  cases hb : (env i).before with
  | error e => rw [hb] at h; simp at h
  | ok bef =>
    rw [hb] at h
    cases hr : (env i).read with
    | error e => simp only [readStableGo, updateLastErr, attemptErr, hb, hr]
    | ok text =>
      rw [hr] at h
      cases ha : (env i).after with
      | error e => simp only [readStableGo, updateLastErr, attemptErr, hb, hr, ha]
      | ok aft =>
        rw [ha] at h
        simp only [decide_eq_true_eq] at h
        simp only [readStableGo, updateLastErr, attemptErr, hb, hr, ha, if_neg h]

/-- `readStableGo` consults only the attempts it can reach: environments that
agree on those attempts produce the same result. -/
theorem readStableGo_congr (env env' : Nat → StableReadAttempt) :
    ∀ left i lastErr, (∀ j, i ≤ j → j < i + left → env j = env' j) →
      readStableGo env left i lastErr = readStableGo env' left i lastErr := by
  intro left
  induction left with
  | zero => intro i lastErr _; rfl
  | succ n ih =>
    intro i lastErr h
    have hi : env i = env' i := h i le_rfl (by omega)
    have hrest : ∀ j, i + 1 ≤ j → j < i + 1 + n → env j = env' j :=
      fun j h1 h2 => h j (by omega) (by omega)
    cases hb : (env' i).before with
    | error e => simp only [readStableGo, hi, hb]
    | ok bef =>
      cases hr : (env' i).read with
      | error e =>
        simp only [readStableGo, hi, hb, hr]
        exact ih (i + 1) (some e) hrest
      | ok text =>
        cases ha : (env' i).after with
        | error e =>
          simp only [readStableGo, hi, hb, hr, ha]
          exact ih (i + 1) (some e) hrest
        | ok aft =>
          by_cases hba : bef = aft
          · simp only [readStableGo, hi, hb, hr, ha, if_pos hba]
          · simp only [readStableGo, hi, hb, hr, ha, if_neg hba]
            exact ih (i + 1) lastErr hrest

/-- **C6 (amended).** `read_stable_utf8` makes at most 3 attempts (its result
depends only on the first three attempts); it returns content and revision as
soon as an attempt's two fingerprint snapshots match, retrying earlier read
failures, second-snapshot failures and fingerprint instabilities; exhausting
all attempts returns the last recorded I/O error, or the generic "file changed
while reading" error when no read or second snapshot ever failed; but a
failure of an attempt's *first* fingerprint snapshot is returned immediately
rather than retried. -/
theorem read_stable_utf8_behavior (env : Nat → StableReadAttempt) :
    (∀ env', (∀ j, j < STABLE_READ_RETRIES → env j = env' j) →
      read_stable_utf8 env = read_stable_utf8 env') ∧
    (∀ i text rev, i < STABLE_READ_RETRIES →
      (∀ j, j < i → isRetryAttempt (env j) = true) →
      isStableAttempt (env i) text rev →
      read_stable_utf8 env = .ok (text, rev)) ∧
    ((∀ j, j < STABLE_READ_RETRIES → isRetryAttempt (env j) = true) →
      read_stable_utf8 env = .error ((lastRecordedErr env).getD fileChangedError)) ∧
    (∀ i e, i < STABLE_READ_RETRIES →
      (∀ j, j < i → isRetryAttempt (env j) = true) →
      (env i).before = .error e →
      read_stable_utf8 env = .error e) := by
  refine ⟨?_, ?_, ?_, ?_⟩
  · intro env' hagree
    exact readStableGo_congr env env' 3 0 none (fun j _ h2 => hagree j h2)
  · intro i text rev hi hpre hstable
    have hi3 : i < 3 := hi
    interval_cases i
    · exact readStableGo_stable env 2 0 none text rev hstable
    · have s0 : read_stable_utf8 env =
          readStableGo env 2 1 (updateLastErr (env 0) none) :=
        readStableGo_retry env 2 0 none (hpre 0 (by omega))
      exact s0.trans (readStableGo_stable env 1 1 _ text rev hstable)
    · have s0 : read_stable_utf8 env =
          readStableGo env 2 1 (updateLastErr (env 0) none) :=
        readStableGo_retry env 2 0 none (hpre 0 (by omega))
      have s1 : readStableGo env 2 1 (updateLastErr (env 0) none) =
          readStableGo env 1 2 (updateLastErr (env 1) (updateLastErr (env 0) none)) :=
        readStableGo_retry env 1 1 _ (hpre 1 (by omega))
      exact (s0.trans s1).trans (readStableGo_stable env 0 2 _ text rev hstable)
  · intro hall
    have s0 : read_stable_utf8 env =
        readStableGo env 2 1 (updateLastErr (env 0) none) :=
      readStableGo_retry env 2 0 none (hall 0 (by decide))
    have s1 : readStableGo env 2 1 (updateLastErr (env 0) none) =
        readStableGo env 1 2 (updateLastErr (env 1) (updateLastErr (env 0) none)) :=
      readStableGo_retry env 1 1 _ (hall 1 (by decide))
    have s2 : readStableGo env 1 2 (updateLastErr (env 1) (updateLastErr (env 0) none)) =
        readStableGo env 0 3 (lastRecordedErr env) :=
      readStableGo_retry env 0 2 _ (hall 2 (by decide))
    exact ((s0.trans s1).trans s2).trans rfl
  · intro i e hi hpre hbefore
    have hi3 : i < 3 := hi
    interval_cases i
    · exact readStableGo_beforeErr env 2 0 none e hbefore
    · have s0 : read_stable_utf8 env =
          readStableGo env 2 1 (updateLastErr (env 0) none) :=
        readStableGo_retry env 2 0 none (hpre 0 (by omega))
      exact s0.trans (readStableGo_beforeErr env 1 1 _ e hbefore)
    · have s0 : read_stable_utf8 env =
          readStableGo env 2 1 (updateLastErr (env 0) none) :=
        readStableGo_retry env 2 0 none (hpre 0 (by omega))
      have s1 : readStableGo env 2 1 (updateLastErr (env 0) none) =
          readStableGo env 1 2 (updateLastErr (env 1) (updateLastErr (env 0) none)) :=
        readStableGo_retry env 1 1 _ (hpre 1 (by omega))
      exact (s0.trans s1).trans (readStableGo_beforeErr env 0 2 _ e hbefore)

/-- A fixed sample revision. -/
def rev0 : DiskRevision := ⟨0, 7, 1, 2⟩

/-- An environment whose attempts are always clean and stable. -/
def envAllStable : Nat → StableReadAttempt :=
  fun _ => ⟨.ok rev0, .ok "hello", .ok rev0⟩

/-- Witness for C6 (amended): on an immediately stable file, the first attempt
returns its content and revision. -/
theorem read_stable_utf8_behavior_witness :
    read_stable_utf8 envAllStable = .ok ("hello", rev0) :=
  (read_stable_utf8_behavior envAllStable).2.1 0 "hello" rev0 (by decide)
    (fun j hj => absurd hj (Nat.not_lt_zero j)) (by decide)

/-- An environment whose first attempt fails its initial fingerprint snapshot
while every later attempt would be clean and stable. -/
def envBeforeFail : Nat → StableReadAttempt :=
  fun i =>
    if i = 0 then ⟨.error ⟨.other, "boom"⟩, .ok "hello", .ok rev0⟩
    else ⟨.ok rev0, .ok "hello", .ok rev0⟩

/-- Counterexample to C6 as stated: a stat failure *within the first attempt*
(its initial fingerprint snapshot) is returned immediately, not retried, even
though the very next attempt would have read the file stably. -/
theorem read_stable_utf8_beforeErr_counterexample :
    read_stable_utf8 envBeforeFail = .error ⟨.other, "boom"⟩ ∧
    isStableAttempt (envBeforeFail 1) "hello" rev0 ∧
    isStableAttempt (envBeforeFail 2) "hello" rev0 := by
  refine ⟨rfl, ?_, ?_⟩ <;> exact ⟨rfl, rfl, rfl⟩

/-! ## Coordinator preservation lemmas -/

@[simp]
theorem schedule_disk_reload_doc (now : Nat) (s : AppState) :
    (schedule_disk_reload now s).doc = s.doc := by
  unfold schedule_disk_reload
  dsimp only
  split <;> rfl

@[simp]
theorem schedule_disk_reload_in_flight (now : Nat) (s : AppState) :
    (schedule_disk_reload now s).disk_reload_in_flight = s.disk_reload_in_flight := by
  unfold schedule_disk_reload
  dsimp only
  split <;> rfl

@[simp]
theorem schedule_disk_reload_conflict (now : Nat) (s : AppState) :
    (schedule_disk_reload now s).disk_conflict = s.disk_conflict := by
  unfold schedule_disk_reload
  dsimp only
  split <;> rfl

@[simp]
theorem schedule_disk_reload_rx (now : Nat) (s : AppState) :
    (schedule_disk_reload now s).disk_read_rx = s.disk_read_rx := by
  unfold schedule_disk_reload
  dsimp only
  split <;> rfl

@[simp]
theorem pollStep_in_flight (env : TickEnv) (s : AppState) :
    (pollStep env s).disk_reload_in_flight = s.disk_reload_in_flight := by
  unfold pollStep
  cases env.pollRev with
  | ok rev => dsimp only; split <;> simp
  | error e => rfl

@[simp]
theorem pollStep_conflict (env : TickEnv) (s : AppState) :
    (pollStep env s).disk_conflict = s.disk_conflict := by
  unfold pollStep
  cases env.pollRev with
  | ok rev => dsimp only; split <;> simp
  | error e => rfl

@[simp]
theorem apply_disk_text_state_conflict (s : AppState) (t b : String)
    (r : DiskRevision) (d c : Bool) :
    (apply_disk_text_state s t b r d c).disk_conflict = s.disk_conflict := rfl

@[simp]
theorem apply_disk_text_state_rx (s : AppState) (t b : String)
    (r : DiskRevision) (d c : Bool) :
    (apply_disk_text_state s t b r d c).disk_read_rx = s.disk_read_rx := rfl

/-- `tickWatchAndPoll` leaves the in-flight flag unchanged. -/
theorem tickWatchAndPoll_in_flight (env : TickEnv) (s : AppState) :
    (tickWatchAndPoll env s).disk_reload_in_flight = s.disk_reload_in_flight := by
  unfold tickWatchAndPoll
  dsimp only
  repeat' split
  all_goals simp

/-- `tickWatchAndPoll` leaves the pending conflict unchanged. -/
theorem tickWatchAndPoll_conflict (env : TickEnv) (s : AppState) :
    (tickWatchAndPoll env s).disk_conflict = s.disk_conflict := by
  unfold tickWatchAndPoll
  dsimp only
  repeat' split
  all_goals simp

/-- `drainGo` never clears a pending conflict: results are discarded while one
is pending at reception, and the applying arms only ever set one. -/
theorem drainGo_conflict_ne_none (now : Nat) :
    ∀ (msgs : List DiskReadMessage) (s : AppState), s.disk_conflict ≠ none →
      (drainGo now s msgs).disk_conflict ≠ none := by
  intro msgs
  induction msgs with
  | nil =>
    intro s h
    simpa [drainGo] using h
  | cons msg rest ih =>
    intro s h
    simp only [drainGo]
    split
    · exact ih s h
    · split
      · exact ih s h
      · split
        · exact ih _ (by simpa using h)
        · cases msg.outcome with
          | ok outcome =>
            cases outcome with
            | Replace dt dr => exact ih _ (by simpa using h)
            | MergeClean mt dt dr => exact ih _ (by simpa using h)
            | MergeConflict dt dr cm ow => exact ih _ (by simp [set_disk_conflict])
          | error e => exact ih _ (by simpa using h)

/-- A pending conflict survives `drain_disk_read_results`. -/
theorem drain_conflict_ne_none (now : Nat) (s : AppState)
    (h : s.disk_conflict ≠ none) :
    (drain_disk_read_results now s).disk_conflict ≠ none := by
  unfold drain_disk_read_results
  cases s.disk_read_rx with
  | none => exact h
  | some msgs => exact drainGo_conflict_ne_none now msgs s h

/-! ## Claims about the coordinator -/

/-- One `bump_edit_seq` sets `edit_seq` to its wrapping successor. -/
theorem bump_edit_seq_val (s : AppState) :
    (bump_edit_seq s).doc.edit_seq = (s.doc.edit_seq + 1) % U64 := rfl

/-- Iterating `bump_edit_seq` follows wrapping `u64` addition. -/
theorem bump_edit_seq_iterate (s : AppState) (hs : s.doc.edit_seq < U64) :
    ∀ n, (bump_edit_seq^[n] s).doc.edit_seq = (s.doc.edit_seq + n) % U64 := by
  have hU : U64 = 18446744073709551616 := by norm_num [U64]
  intro n
  induction n with
  | zero =>
    simp only [Function.iterate_zero, id_eq, Nat.add_zero]
    simp only [hU] at hs ⊢
    omega
  | succ n ih =>
    rw [Function.iterate_succ_apply', bump_edit_seq_val, ih]
    simp only [hU] at hs ⊢
    omega

/-- **C4 (amended).** `edit_seq` is a wrapping `u64` counter: every mutation
sets it to `(edit_seq + 1) mod 2^64`, so it strictly increases on each
mutation as long as it is below `2^64 - 1`, and across a sequence of `n`
mutations it follows wrapping addition — it wraps to `0` (a decrease) only
at the `2^64`-th bump. -/
theorem bump_edit_seq_wrapping (s : AppState) :
    (bump_edit_seq s).doc.edit_seq = (s.doc.edit_seq + 1) % U64 ∧
    (s.doc.edit_seq < U64 - 1 → s.doc.edit_seq < (bump_edit_seq s).doc.edit_seq) ∧
    (s.doc.edit_seq < U64 →
      ∀ n, (bump_edit_seq^[n] s).doc.edit_seq = (s.doc.edit_seq + n) % U64) := by
  have hU : U64 = 18446744073709551616 := by norm_num [U64]
  refine ⟨rfl, ?_, fun hs n => bump_edit_seq_iterate s hs n⟩
  intro hlt
  rw [bump_edit_seq_val]
  simp only [hU] at hlt ⊢
  omega

/-- The freshly created blank document and coordinator state
(`RustdownApp::default()` / `Document::default()`). -/
def app0 : AppState :=
  { doc := { path := none, text := "", base_text := "", disk_rev := none,
             dirty := false, last_edit_at := none, edit_seq := 0 },
    error := none, disk_reload_nonce := 0, disk_watcher := false,
    disk_poll_at := none, pending_disk_reload_at := none,
    disk_reload_in_flight := false, disk_read_rx := none,
    disk_conflict := none, merge_sidecar_path := none }

/-- Witness for C4 (amended): from the fresh document, one mutation strictly
increases `edit_seq`. -/
theorem bump_edit_seq_wrapping_witness :
    app0.doc.edit_seq < (bump_edit_seq app0).doc.edit_seq :=
  (bump_edit_seq_wrapping app0).2.1 (by norm_num [app0, U64])

/-- Counterexample to C4 as stated: `edit_seq` is bumped with `wrapping_add`,
so from the reachable state after `2^64 - 1` mutations of the fresh document
(where `edit_seq = 2^64 - 1`), the next mutation wraps it to `0` — a strict
decrease. -/
theorem bump_edit_seq_wrap_counterexample :
    (bump_edit_seq^[U64 - 1] app0).doc.edit_seq = U64 - 1 ∧
    bump_edit_seq^[U64] app0 = bump_edit_seq (bump_edit_seq^[U64 - 1] app0) ∧
    (bump_edit_seq (bump_edit_seq^[U64 - 1] app0)).doc.edit_seq = 0 ∧
    (bump_edit_seq (bump_edit_seq^[U64 - 1] app0)).doc.edit_seq <
      (bump_edit_seq^[U64 - 1] app0).doc.edit_seq := by
  have hU : U64 = 18446744073709551616 := by norm_num [U64]
  have h0 : app0.doc.edit_seq = 0 := rfl
  have hlt : app0.doc.edit_seq < U64 := by rw [h0, hU]; omega
  have h1 : (bump_edit_seq^[U64 - 1] app0).doc.edit_seq = U64 - 1 := by
    rw [bump_edit_seq_iterate app0 hlt (U64 - 1), h0]
    simp only [hU]
  have h2 : bump_edit_seq^[U64] app0 = bump_edit_seq (bump_edit_seq^[U64 - 1] app0) := by
    conv_lhs => rw [show U64 = (U64 - 1) + 1 from by rw [hU]]
    rw [Function.iterate_succ_apply']
  have h3 : (bump_edit_seq (bump_edit_seq^[U64 - 1] app0)).doc.edit_seq = 0 := by
    rw [bump_edit_seq_val, h1, hU]
  refine ⟨h1, h2, h3, ?_⟩
  rw [h3, h1, hU]
  omega

/-- **C1 (amended).** A reload result is applied to the document only if its
nonce equals the latest issued nonce, its path equals the document's current
path, and its snapshotted `edit_seq` equals the current `edit_seq`. When the
nonce and path match but `edit_seq` has advanced, the result is discarded,
the in-flight flag cleared, and a fresh reload is scheduled. When the nonce or
the path does not match, the result is discarded with *no* fresh reload
scheduled. -/
theorem drain_applies_only_matching (now : Nat) (s : AppState)
    (msg : DiskReadMessage) :
    ((drainGo now s [msg]).doc ≠ s.doc →
      msg.nonce = s.disk_reload_nonce ∧ s.doc.path = some msg.path ∧
        s.doc.edit_seq = msg.edit_seq) ∧
    (msg.nonce = s.disk_reload_nonce → s.doc.path = some msg.path →
      s.doc.edit_seq ≠ msg.edit_seq →
      drainGo now s [msg] =
        { schedule_disk_reload now { s with disk_reload_in_flight := false } with
            disk_read_rx := some [] }) ∧
    ((msg.nonce ≠ s.disk_reload_nonce ∨ s.doc.path ≠ some msg.path) →
      drainGo now s [msg] = { s with disk_read_rx := some [] }) := by
  refine ⟨?_, ?_, ?_⟩
  · intro hdoc
    by_cases h1 : msg.nonce = s.disk_reload_nonce
    · by_cases h2 : s.doc.path = some msg.path
      · by_cases h3 : s.doc.edit_seq = msg.edit_seq
        · exact ⟨h1, h2, h3⟩
        · exact absurd (by simp [drainGo, h1, h2, h3]) hdoc
      · exact absurd (by simp [drainGo, h1, h2]) hdoc
    · exact absurd (by simp [drainGo, h1]) hdoc
  · intro h1 h2 h3
    simp [drainGo, h1, h2, h3]
  · rintro (h1 | h2)
    · simp [drainGo, h1]
    · by_cases h1 : msg.nonce = s.disk_reload_nonce
      · simp [drainGo, h1, h2]
      · simp [drainGo, h1]

/-- A stale-nonce message, otherwise matching the document. -/
def c1Msg : DiskReadMessage := ⟨"note.md", 4, 7, .ok (.Replace "d" rev0)⟩

/-- A coordinator state whose latest nonce is 5, holding `c1Msg` (nonce 4)
in its result channel. -/
def c1State : AppState :=
  { doc := { path := some "note.md", text := "t", base_text := "b", disk_rev := none,
             dirty := false, last_edit_at := none, edit_seq := 7 },
    error := none, disk_reload_nonce := 5, disk_watcher := false,
    disk_poll_at := none, pending_disk_reload_at := none,
    disk_reload_in_flight := true, disk_read_rx := some [c1Msg],
    disk_conflict := none, merge_sidecar_path := none }

/-- Counterexample to C1 as stated: a result whose nonce is stale (4 vs 5) but
whose snapshotted `edit_seq` matches is not applied — and *no* fresh reload is
scheduled either; it is dropped silently, contradicting "in every other case …
a fresh reload is scheduled". -/
theorem drain_stale_nonce_counterexample :
    c1Msg.nonce ≠ c1State.disk_reload_nonce ∧
    c1Msg.edit_seq = c1State.doc.edit_seq ∧
    c1Msg.path = "note.md" ∧ c1State.doc.path = some "note.md" ∧
    (drain_disk_read_results 0 c1State).doc = c1State.doc ∧
    (drain_disk_read_results 0 c1State).pending_disk_reload_at = none := by
  refine ⟨by decide, rfl, rfl, rfl, ?_, ?_⟩ <;> rfl

/-- Witness for C1 (amended): a matching-nonce, matching-path, stale-edit_seq
message is discarded and a reload is scheduled at `now + debounce`. -/
theorem drain_applies_only_matching_witness :
    drainGo 10 { c1State with disk_reload_nonce := 4 }
        [⟨"note.md", 4, 6, .ok (.Replace "d" rev0)⟩] =
      { schedule_disk_reload 10
          { { c1State with disk_reload_nonce := 4 } with
              disk_reload_in_flight := false } with
          disk_read_rx := some [] } :=
  (drain_applies_only_matching 10 { c1State with disk_reload_nonce := 4 }
      ⟨"note.md", 4, 6, .ok (.Replace "d" rev0)⟩).2.1
    rfl rfl (by decide)

/-- **C8.** The per-tick logic never starts a new background reload while one
is still in flight, and never starts one while a disk conflict is pending: a
tick that starts a reload does so from a (post-drain) state with no reload in
flight and no pending conflict, and a tick beginning with a pending conflict
starts nothing. -/
theorem tick_no_reload_while_busy_or_conflicted (env : TickEnv) (s : AppState) :
    ((tick_disk_sync env s).2.isSome = true →
      (drain_disk_read_results env.now s).disk_reload_in_flight = false ∧
      (drain_disk_read_results env.now s).disk_conflict = none) ∧
    (s.disk_conflict ≠ none → (tick_disk_sync env s).2 = none) := by
  constructor
  · intro hsome
    unfold tick_disk_sync at hsome
    by_cases hc : (drain_disk_read_results env.now s).disk_conflict = none
    · rw [if_neg (fun hh => hh hc)] at hsome
      cases hpath : (drain_disk_read_results env.now s).doc.path with
      | none => rw [hpath] at hsome; simp at hsome
      | some path =>
        rw [hpath] at hsome
        dsimp only at hsome
        by_cases hf : (tickWatchAndPoll env
            (drain_disk_read_results env.now s)).disk_reload_in_flight = true
        · rw [if_pos hf] at hsome
          simp at hsome
        · refine ⟨?_, hc⟩
          rw [← tickWatchAndPoll_in_flight env (drain_disk_read_results env.now s)]
          exact Bool.not_eq_true _ ▸ hf
    · rw [if_pos hc] at hsome
      simp at hsome
  · intro hne
    unfold tick_disk_sync
    rw [if_pos (drain_conflict_ne_none env.now s hne)]

/-- A tick environment with nothing happening. -/
def env0 : TickEnv := ⟨0, false, false, .error ⟨.other, "no poll"⟩⟩

/-- A state with a pending disk conflict. -/
def conflictedState : AppState :=
  { c1State with
    disk_read_rx := some []
    disk_reload_in_flight := false
    disk_conflict := some ⟨"d", rev0, "cm", "ow"⟩ }

/-- Witness for C8: with a conflict pending, the tick starts no reload. -/
theorem tick_no_reload_witness :
    (tick_disk_sync env0 conflictedState).2 = none :=
  (tick_no_reload_while_busy_or_conflicted env0 conflictedState).2 (by decide)

/-- **C7.** On an explicit save to the document's current path with no
conflict pending, the target is first stable-read and the fresh disk text
incorporated; if that incorporation produces a merge conflict, the save is
aborted: `save_doc` returns `false`, performs no write at all (so the on-disk
file is untouched), and leaves the document in the post-incorporation state
with the conflict surfaced. -/
theorem save_doc_presave_conflict_aborts (diffFn : String → String → List Edit)
    (env : SaveEnv) (save_as : Bool) (s : AppState) (path : String) (upd : Bool)
    (disk_text : String) (disk_rev : DiskRevision) (c : DiskConflict)
    (hchoice : save_path_choice env.dialog save_as s = some (path, upd))
    (hcur : s.doc.path = some path)
    (hnoconf : s.disk_conflict = none)
    (hread : env.stableRead = .ok (disk_text, disk_rev))
    (hconf : (incorporate_disk_text diffFn s disk_text disk_rev).disk_conflict = some c) :
    save_doc diffFn env save_as s =
      (incorporate_disk_text diffFn s disk_text disk_rev, false, []) ∧
    (save_doc diffFn env save_as s).1.disk_conflict = some c := by
  have hmain : save_doc diffFn env save_as s =
      (incorporate_disk_text diffFn s disk_text disk_rev, false, []) := by
    unfold save_doc
    rw [hchoice]
    dsimp only
    have hcond : s.disk_conflict = none ∧ s.doc.path = some path := ⟨hnoconf, hcur⟩
    rw [hread, if_pos hcond]
    dsimp only
    have hconfne :
        (incorporate_disk_text diffFn s disk_text disk_rev).disk_conflict ≠ none := by
      rw [hconf]
      exact fun hh => Option.noConfusion hh
    rw [if_pos hconfne]
  exact ⟨hmain, by rw [hmain]; exact hconf⟩

/-- The diff of the repository's `overlapping_edits_produce_conflict` test
inputs: base `"a\nb\n"`, ours `"a\nO\n"`, theirs `"a\nT\n"`. -/
def diffW : String → String → List Edit := fun _ o =>
  if o = "a\nO\n" then [⟨1, 2, ["O\n"]⟩]
  else if o = "a\nT\n" then [⟨1, 2, ["T\n"]⟩]
  else []

/-- A dirty document on `note.md` whose local edit conflicts with the disk. -/
def c7State : AppState :=
  { doc := { path := some "note.md", text := "a\nO\n", base_text := "a\nb\n",
             disk_rev := none, dirty := true, last_edit_at := none, edit_seq := 3 },
    error := none, disk_reload_nonce := 1, disk_watcher := false,
    disk_poll_at := none, pending_disk_reload_at := none,
    disk_reload_in_flight := false, disk_read_rx := none,
    disk_conflict := none, merge_sidecar_path := none }

/-- A save environment whose pre-save stable read returns conflicting disk
content. -/
def c7Env : SaveEnv := ⟨none, .ok ("a\nT\n", rev0), .ok (), .ok rev0⟩

/-- Witness for C7: the concrete conflicting save is aborted with no write. -/
theorem save_doc_presave_conflict_aborts_witness :
    save_doc diffW c7Env false c7State =
      (incorporate_disk_text diffW c7State "a\nT\n" rev0, false, []) ∧
    (save_doc diffW c7Env false c7State).1.disk_conflict =
      some ⟨"a\nT\n", rev0, "a\n<<<<<<< ours\nO\n=======\nT\n>>>>>>> theirs\n", "a\nO\n"⟩ :=
  save_doc_presave_conflict_aborts diffW c7Env false c7State "note.md" false
    "a\nT\n" rev0
    ⟨"a\nT\n", rev0, "a\n<<<<<<< ours\nO\n=======\nT\n>>>>>>> theirs\n", "a\nO\n"⟩
    rfl rfl rfl rfl (by decide)

/-- **C10.** Invoking `apply_conflict_choice` while no disk conflict is
pending is a no-op for every choice: it returns immediately, the entire
document and coordinator state are unchanged (in particular no sync-state
reset and no nonce bump), and no file write is attempted. -/
theorem apply_conflict_choice_no_conflict_noop
    (diffFn : String → String → List Edit) (env : ConflictEnv)
    (choice : ConflictChoice) (s : AppState) (h : s.disk_conflict = none) :
    apply_conflict_choice diffFn env choice s = (s, []) := by
  unfold apply_conflict_choice
  rw [h]

/-- A conflict-resolution environment for the witness. -/
def c10Env : ConflictEnv :=
  ⟨⟨none, .error ⟨.other, "e"⟩, .ok (), .ok rev0⟩, .ok "side", .ok (), .ok (), .ok rev0⟩

/-- Witness for C10: on the fresh conflict-free state, every choice is a
no-op; instantiated at `OverwriteDisk`. -/
theorem apply_conflict_choice_no_conflict_noop_witness :
    apply_conflict_choice (fun _ _ => []) c10Env .OverwriteDisk app0 = (app0, []) :=
  apply_conflict_choice_no_conflict_noop (fun _ _ => []) c10Env .OverwriteDisk app0 rfl

end Rustdown
